import Mathlib

/-!
Shallow embedding of the energy-mix importer (`src/app.py`) and verification of
its specification.  The XML tree handed to the parser is modelled structurally
(`DayNode`, `EnergyTypeNode`, `PeriodNode`); `ET.fromstring` (well-formedness of
the markup itself) is abstracted away, so `parse_xml` takes the list of day
nodes of the root.  Python exceptions are modelled by the `PyErr` type and
fallible code returns `Except PyErr _`.  `datetime.timestamp()` is modelled
under the UTC environment that the code's own docstring assumes.
-/

set_option maxHeartbeats 1000000

/-- Python exception classes that the embedded code can raise. -/
inductive PyErr where
  | valueError
  | typeError
  | keyError (k : String)
  | indexError
  | overflowError
  deriving Repr, DecidableEq

/-! ### Python `int(...)` on strings -/

/-- Whitespace characters stripped by Python `int()` before parsing. -/
def pyIsSpace (c : Char) : Bool :=
  c = ' ' || c = '\t' || c = '\n' || c = '\x0d' || c = '\x0b' || c = '\x0c'

/-- Strip leading and trailing whitespace, as `int()` does. -/
def pyStrip (cs : List Char) : List Char :=
  ((cs.dropWhile pyIsSpace).reverse.dropWhile pyIsSpace).reverse

/-- Parse a nonempty digit run; single underscores are allowed between digits
(Python numeric-literal syntax accepted by `int()`). -/
def pyDigitsAux : List Char → Nat → Option Nat
  | [], acc => some acc
  | [c], acc => if c.isDigit then some (acc * 10 + (c.toNat - 48)) else none
  | c :: c2 :: rest, acc =>
    if c.isDigit then pyDigitsAux (c2 :: rest) (acc * 10 + (c.toNat - 48))
    else if c = '_' then
      (if c2.isDigit then pyDigitsAux (c2 :: rest) acc else none)
    else none

/-- Parse a digit body: must start with a digit and be nonempty. -/
def pyDigits : List Char → Option Nat
  | [] => none
  | c :: rest => if c.isDigit then pyDigitsAux (c :: rest) 0 else none

/-- Python `int(s)` for a string argument: `some n` on success, `none` when a
`ValueError` would be raised. -/
def pythonInt (s : String) : Option Int :=
  match pyStrip s.toList with
  | '+' :: cs => (pyDigits cs).map (fun n => (n : Int))
  | '-' :: cs => (pyDigits cs).map (fun n => -(n : Int))
  | cs => (pyDigits cs).map (fun n => (n : Int))

/-! ### `datetime.strptime(date_str, "%Y-%m-%d")` and `.timestamp()` -/

/-- Split a character list on the separator `-` (used to match the literal
dashes of the `%Y-%m-%d` format). -/
def splitDash : List Char → List (List Char)
  | [] => [[]]
  | c :: rest =>
    if c = '-' then [] :: splitDash rest
    else
      match splitDash rest with
      | g :: gs => (c :: g) :: gs
      | [] => [[c]]

/-- Numeric value of a digit string. -/
def natOfDigits (cs : List Char) : Nat :=
  cs.foldl (fun a c => a * 10 + (c.toNat - 48)) 0

/-- Gregorian leap-year test (`calendar`/`datetime._is_leap`), written with
nested conditionals. -/
def pyIsLeap (y : Nat) : Bool :=
  if y % 4 = 0 then (if y % 100 = 0 then (if y % 400 = 0 then true else false) else true)
  else false

/-- Days in a month, as validated by the `datetime` constructor. -/
def daysInMonth (y m : Nat) : Nat :=
  if m = 2 then (if pyIsLeap y then 29 else 28)
  else if m = 4 ∨ m = 6 ∨ m = 9 ∨ m = 11 then 30
  else 31

/-- `datetime._days_before_month`, the cumulative day counts table. -/
def daysBeforeMonth (m : Nat) : Nat :=
  if m = 1 then 0 else if m = 2 then 31 else if m = 3 then 59 else if m = 4 then 90
  else if m = 5 then 120 else if m = 6 then 151 else if m = 7 then 181 else if m = 8 then 212
  else if m = 9 then 243 else if m = 10 then 273 else if m = 11 then 304 else 334

/-- Leap-day adjustment added by `_days_before_month` when the month is past
February of a leap year. -/
def leapAdj (y m : Nat) : Nat :=
  if 2 < m then (if pyIsLeap y then 1 else 0) else 0

/-- `datetime._days_before_year y + 1`-style ordinal bookkeeping: days before
January 1st of year `y` counted from ordinal day 0 (so that `toordinal` below
matches CPython's `date.toordinal`). -/
def daysBeforeYear (y : Nat) : Nat :=
  (y - 1) * 365 + (y - 1) / 4 - (y - 1) / 100 + (y - 1) / 400

/-- CPython's `date.toordinal`: proleptic Gregorian ordinal, with day 1 being
0001-01-01. -/
def toordinal (y m d : Nat) : Nat :=
  daysBeforeYear y + daysBeforeMonth m + leapAdj y m + d

/-- Ordinal of 1970-01-01, the epoch used by `datetime.timestamp`. -/
def epochOrdinal : Nat := 719163

/-- Ordinal of 9999-12-31 (`datetime.max`); results past it raise
`OverflowError` in datetime arithmetic. -/
def maxOrdinal : Nat := 3652059

/-- `datetime.strptime(s, "%Y-%m-%d")`: exactly three dash-separated digit
groups, the year of exactly 4 digits, month and day of 1 or 2 digits, with the
value ranges enforced by the `_strptime` regex and the `datetime` constructor.
Returns `none` where Python raises `ValueError`. -/
def strptime_Ymd (s : String) : Option (Nat × Nat × Nat) :=
  match splitDash s.toList with
  | [ys, ms, ds] =>
    if ys.length = 4 && ys.all Char.isDigit
        && 1 ≤ ms.length && ms.length ≤ 2 && ms.all Char.isDigit
        && 1 ≤ ds.length && ds.length ≤ 2 && ds.all Char.isDigit then
      let y := natOfDigits ys
      let m := natOfDigits ms
      let d := natOfDigits ds
      if 1 ≤ y && 1 ≤ m && m ≤ 12 && 1 ≤ d && d ≤ daysInMonth y m then
        some (y, m, d)
      else none
    else none
  | _ => none

/-- `get_unix_timestamp` (src/app.py:32-39): parse the date with
`strptime(_, "%Y-%m-%d")`, add `period * 15` minutes with `timedelta`, and take
the epoch-seconds timestamp.  The docstring assumes the UTC timezone, so
`.timestamp()` of the naive datetime is the plain epoch arithmetic; the
`datetime + timedelta` addition raises `OverflowError` when the shifted date
falls outside year 9999. -/
def get_unix_timestamp (date_str : String) (period : Nat) : Except PyErr Int :=
  match strptime_Ymd date_str with
  | none => .error .valueError
  | some (y, m, d) =>
    let total : Nat := toordinal y m d * 86400 + period * 900
    if total ≤ maxOrdinal * 86400 + 86399 then
      .ok ((total : Int) - epochOrdinal * 86400)
    else
      .error .overflowError

/-! ### Specification-side timestamp model -/

/-- Shifted civil year used by the days-from-civil algorithm: January and
February count with the previous year. -/
def civilYear (y m : Nat) : Nat := if m ≤ 2 then y - 1 else y

/-- 400-year era of the shifted civil year. -/
def civilEra (y m : Nat) : Nat := civilYear y m / 400

/-- Year of era. -/
def civilYoe (y m : Nat) : Nat := civilYear y m - civilEra y m * 400

/-- Day of year of the March-based year. -/
def civilDoy (m d : Nat) : Nat := (153 * ((m + 9) % 12) + 2) / 5 + d - 1

/-- Day of era. -/
def civilDoe (y m d : Nat) : Nat :=
  civilYoe y m * 365 + civilYoe y m / 4 - civilYoe y m / 100 + civilDoy m d

/-- Days between 1970-01-01 and the civil date `y-m-d` (negative before the
epoch), by the standard days-from-civil algorithm.  This is an independent
formulation of "the calendar date taken as UTC", used as the specification
model against which `get_unix_timestamp` is checked. -/
def daysFromCivil (y m d : Nat) : Int :=
  (civilEra y m * 146097 + civilDoe y m d : Nat) - 719468

/-- Specification model: the epoch-seconds value of the calendar date `y-m-d`
taken as UTC midnight. -/
def utcMidnightEpoch (y m d : Nat) : Int := 86400 * daysFromCivil y m d

/-! ### XML data model and the Reading record -/

/-- A period node: attribute `periode` (interval index, as a string) and the
element text (`None` is possible for an empty element). -/
structure PeriodNode where
  periode : String
  text : Option String
  deriving Repr, DecidableEq

/-- An energy-type node: attribute `v` (source-locale label) and its period
children in document order. -/
structure EnergyTypeNode where
  v : String
  periods : List PeriodNode
  deriving Repr, DecidableEq

/-- A day node: attribute `date` and its energy-type children in document
order. -/
structure DayNode where
  date : String
  children : List EnergyTypeNode
  deriving Repr, DecidableEq

/-- One output record: the `time`/`country` fields plus the accumulated
energy-type entries of the Python dict, as an association list in insertion
order. -/
structure Reading where
  time : Int
  country : String
  values : List (String × Int)
  deriving Repr, DecidableEq

/-- `ENERGY_TYPES` (src/app.py:15-29): the canonical lookup table, with the
exact (mojibake) key spellings of the source file. -/
def ENERGY_TYPES : List (String × String) :=
  [("NuclÃ©aire", "nuclear"),
   ("Charbon", "coal"),
   ("Gaz", "gas"),
   ("Fioul", "heavy-oil"),
   ("Pointe", "oil"),
   ("Fioul + Pointe", "oil"),
   ("Hydraulique", "hydro"),
   ("Eolien", "wind"),
   ("Solde", "others"),
   ("Autres", "others"),
   ("Pompage", "pumped-storage"),
   ("Solaire", "solar"),
   ("Consommation", "consumption")]

/-- Dict lookup `ENERGY_TYPES[label]`: `some` canonical id, `none` where Python
raises `KeyError`. -/
def lookupEnergy (label : String) : Option String :=
  (ENERGY_TYPES.find? (fun p => p.1 == label)).map (fun p => p.2)

/-- `dict.get k 0` on the values of a Reading. -/
def getVal (vs : List (String × Int)) (k : String) : Int :=
  match vs.find? (fun p => p.1 == k) with
  | some p => p.2
  | none => 0

/-- Membership of a key in the values of a Reading. -/
def hasKey (vs : List (String × Int)) (k : String) : Bool :=
  (vs.find? (fun p => p.1 == k)).isSome

/-- Dict assignment `d[k] = x`: replace the binding in place or append it. -/
def setVal : List (String × Int) → String → Int → List (String × Int)
  | [], k, x => [(k, x)]
  | p :: rest, k, x => if p.1 == k then (k, x) :: rest else p :: setVal rest k x

/-- Python list indexing: negative indices count from the end; out-of-range
raises `IndexError`. -/
def pyListIndex (n : Nat) (i : Int) : Except PyErr Nat :=
  if 0 ≤ i then
    (if i < (n : Int) then .ok i.toNat else .error .indexError)
  else
    (if 0 ≤ i + n then .ok (i + n).toNat else .error .indexError)

/-- A Python `for` loop threading a value, stopping at the first raised
exception. -/
def exceptFoldl {α β : Type} (f : β → α → Except PyErr β) : β → List α → Except PyErr β
  | b, [] => .ok b
  | b, a :: as =>
    match f b a with
    | .error e => .error e
    | .ok b2 => exceptFoldl f b2 as

/-- `int(period_element.text)` guarded by `except ValueError: value = 0`
(src/app.py:56-59).  A `None` text raises `TypeError`, which the handler does
not catch. -/
def parseValue : Option String → Except PyErr Int
  | none => .error .typeError
  | some s => .ok ((pythonInt s).getD 0)

/-- The body of the inner loop of `parse_xml_day` (src/app.py:54-62): look up
the canonical id of the enclosing node's label, parse the period text (with the
0 fallback), convert the `periode` attribute and use it as the list index, and
add the value into the accumulator for that id at that index. -/
def processPeriod (v : String) (result : List Reading) (p : PeriodNode) :
    Except PyErr (List Reading) :=
  match lookupEnergy v with
  | none => .error (.keyError v)
  | some energy_type =>
    match parseValue p.text with
    | .error e => .error e
    | .ok value =>
      match pythonInt p.periode with
      | none => .error .valueError
      | some idx =>
        match pyListIndex result.length idx with
        | .error e => .error e
        | .ok j =>
          match result[j]? with
          | none => .error .indexError
          | some r =>
            .ok (result.set j
              { r with values := setVal r.values energy_type (getVal r.values energy_type + value) })

/-- The loop over the period children of one energy-type node. -/
def processNode (result : List Reading) (e : EnergyTypeNode) : Except PyErr (List Reading) :=
  exceptFoldl (processPeriod e.v) result e.periods

/-- The initializer comprehension of `parse_xml_day` (src/app.py:46-52): one
skeleton Reading per period index of the day. -/
def initLoop (date : String) : List Nat → Except PyErr (List Reading)
  | [] => .ok []
  | p :: ps =>
    match get_unix_timestamp date p with
    | .error e => .error e
    | .ok t =>
      match initLoop date ps with
      | .error e => .error e
      | .ok rest => .ok ({ time := t, country := "FR", values := [] } :: rest)

/-- Building the initial Readings: `day_element[0]` raises `IndexError` when
the day has no energy-type children; otherwise the interval count is the length
of the first child's period list. -/
def initReadings (day : DayNode) : Except PyErr (List Reading) :=
  match day.children.head? with
  | none => .error .indexError
  | some e0 => initLoop day.date (List.range e0.periods.length)

/-- `parse_xml_day` (src/app.py:42-63). -/
def parse_xml_day (day : DayNode) : Except PyErr (List Reading) :=
  match initReadings day with
  | .error e => .error e
  | .ok init => exceptFoldl processNode init day.children

/-- `parse_xml` (src/app.py:66-77), taken after `ET.fromstring`: iterate the
day nodes from index 7 to the end, appending each day's Readings. -/
def parse_xml (root : List DayNode) : Except PyErr (List Reading) :=
  exceptFoldl
    (fun acc d =>
      match parse_xml_day d with
      | .error e => .error e
      | .ok rs => .ok (acc ++ rs))
    [] (root.drop 7)

/-- `mapM`-style traversal of day nodes, used to state what `parse_xml`
computes. -/
def mapParseDays : List DayNode → Except PyErr (List (List Reading))
  | [] => .ok []
  | d :: ds =>
    match parse_xml_day d with
    | .error e => .error e
    | .ok rs =>
      match mapParseDays ds with
      | .error e => .error e
      | .ok rest => .ok (rs :: rest)

/-! ### Persistence and entrypoint (`write_values`, `create_table`, `lambda_handler`) -/

/-- One record dict destined for the time-series store. -/
structure TSRecord where
  time : String
  measureValues : List (String × String × String)
  deriving Repr, DecidableEq

/-- The eleven measure names written by `write_values` (src/app.py:109-165). -/
def MEASURE_KEYS : List String :=
  ["nuclear", "coal", "gas", "heavy-oil", "oil", "hydro", "wind", "others",
   "pumped-storage", "solar", "consumption"]

/-- Python list subscripted with a string key: always raises `TypeError`.  The
body of the loop in `write_values` does `reading['time']` (and
`reading['nuclear']`, ...) where `reading` is the whole list, not the loop
variable `r`. -/
def pyListGetStr (_l : List Reading) (_k : String) : Except PyErr Int :=
  .error .typeError

/-- `write_values` (src/app.py:88-180): build one record per Reading, then call
the store client inside `try/except` blocks that catch and print every
exception, so the only failure that can escape is one raised while building the
records. -/
def write_values (reading : List Reading) : Except PyErr Unit :=
  match
    exceptFoldl
      (fun (records : List TSRecord) _r =>
        match pyListGetStr reading "time" with
        | .error e => .error e
        | .ok t =>
          match
            exceptFoldl
              (fun (mvs : List (String × String × String)) k =>
                match pyListGetStr reading k with
                | .error e => .error e
                | .ok v => .ok (mvs ++ [(k, toString v, "BIGINT")]))
              [] MEASURE_KEYS
          with
          | .error e => .error e
          | .ok mvs => .ok (records ++ [{ time := toString (t * 1000), measureValues := mvs }]))
      [] reading
  with
  | .error e => .error e
  | .ok _records => .ok ()

/-- `create_table` (src/app.py:182-196): every exception from the client is
caught and printed, so the call always returns. -/
def create_table : Except PyErr Unit := .ok ()

/-- `json.dumps` of a plain string without escapes. -/
def jsonDumpsStr (s : String) : String := "\"" ++ s ++ "\""

/-- The handler's response dict. -/
structure LambdaResponse where
  statusCode : Nat
  body : String
  deriving Repr, DecidableEq

/-- `lambda_handler` (src/app.py:198-216) after fetch and parse have succeeded
with Readings `p`: create the table, write the values, and return the success
response. -/
def lambda_handler (p : List Reading) : Except PyErr LambdaResponse :=
  match create_table with
  | .error e => .error e
  | .ok _ =>
    match write_values p with
    | .error e => .error e
    | .ok _ => .ok { statusCode := 200, body := jsonDumpsStr "Job successful" }

/-- Two Reading lists that agree in length and, position by position, in the
`time` and `country` fields (only the accumulated values may differ). -/
def sameShape (a b : List Reading) : Prop :=
  a.length = b.length ∧
  ∀ i : Nat, (a[i]?).map Reading.time = (b[i]?).map Reading.time ∧
    (a[i]?).map Reading.country = (b[i]?).map Reading.country

/-! ### Helper lemmas -/

theorem getVal_setVal_self (vs : List (String × Int)) (k : String) (x : Int) :
    getVal (setVal vs k x) k = x := by
  induction vs with
  | nil => simp [setVal, getVal, List.find?]
  | cons p rest ih =>
    by_cases h : p.1 == k
    · simp [setVal, h, getVal, List.find?]
    · simp only [setVal, h]
      rw [if_neg (by simp_all)]
      simpa [getVal, List.find?, h] using ih

theorem hasKey_setVal_self (vs : List (String × Int)) (k : String) (x : Int) :
    hasKey (setVal vs k x) k = true := by
  induction vs with
  | nil => simp [setVal, hasKey, List.find?]
  | cons p rest ih =>
    by_cases h : p.1 == k
    · simp [setVal, h, hasKey, List.find?]
    · simp only [setVal, h]
      rw [if_neg (by simp_all)]
      simpa [hasKey, List.find?, h] using ih

theorem getVal_eq_zero_of_not_hasKey (vs : List (String × Int)) (k : String)
    (h : hasKey vs k = false) : getVal vs k = 0 := by
  unfold hasKey at h
  unfold getVal
  cases hf : vs.find? (fun p => p.1 == k) with
  | none => rfl
  | some p => rw [hf] at h; simp at h

theorem sameShape_refl (a : List Reading) : sameShape a a := ⟨rfl, fun _ => ⟨rfl, rfl⟩⟩

theorem sameShape_trans {a b c : List Reading} (h1 : sameShape a b) (h2 : sameShape b c) :
    sameShape a c := by
  refine ⟨h1.1.trans h2.1, fun i => ?_⟩
  exact ⟨(h1.2 i).1.trans (h2.2 i).1, (h1.2 i).2.trans (h2.2 i).2⟩

theorem exceptFoldl_mem_ok {α β : Type} (f : β → α → Except PyErr β) :
    ∀ (l : List α) (b t : β), exceptFoldl f b l = .ok t → ∀ a ∈ l, ∃ s s2, f s a = .ok s2 := by
  intro l
  induction l with
  | nil => intro b t _ a ha; exact absurd ha (List.not_mem_nil a)
  | cons x xs ih =>
    intro b t h a ha
    unfold exceptFoldl at h
    cases hf : f b x with
    | error e => rw [hf] at h; exact absurd h (by simp)
    | ok b2 =>
      rw [hf] at h
      rcases List.mem_cons.mp ha with rfl | hmem
      · exact ⟨b, b2, hf⟩
      · exact ih b2 t h a hmem

theorem exceptFoldl_preserve {α : Type} (f : List Reading → α → Except PyErr (List Reading))
    (hf : ∀ s a s2, f s a = .ok s2 → sameShape s2 s) :
    ∀ (l : List α) (s t : List Reading), exceptFoldl f s l = .ok t → sameShape t s := by
  intro l
  induction l with
  | nil =>
    intro s t h
    unfold exceptFoldl at h
    cases h
    exact sameShape_refl _
  | cons x xs ih =>
    intro s t h
    unfold exceptFoldl at h
    cases hx : f s x with
    | error e => rw [hx] at h; exact absurd h (by simp)
    | ok s2 => rw [hx] at h; exact sameShape_trans (ih s2 t h) (hf s x s2 hx)

/-! ### C10: a day node with no energy-type children -/

/-- C10: for every day node with zero energy-type child nodes, `parse_xml_day`
fails with an IndexError-class failure (from `day_element[0]`); it never
returns an empty list of Readings for such a node. -/
theorem parse_xml_day_indexerror_on_no_children (day : DayNode)
    (h : day.children = []) : parse_xml_day day = .error PyErr.indexError := by
  unfold parse_xml_day initReadings
  rw [h]
  rfl

theorem parse_xml_day_indexerror_on_no_children_witness :
    parse_xml_day { date := "2022-01-01", children := [] } = .error PyErr.indexError :=
  parse_xml_day_indexerror_on_no_children _ rfl

/-! ### C1: documents with fewer than 8 day nodes -/

/-- C1 counterexample: on a root with zero day nodes (fewer than 7),
`parse_xml` does not fail with IndexError — it silently returns the empty
list. -/
theorem parse_xml_no_indexerror_on_empty_root : parse_xml [] = .ok [] := rfl

/-- C1 (amended): for every root with at most 7 day nodes, `parse_xml`
silently returns the empty sequence of Readings; no IndexError-class failure
is raised (the `range(7, len(root))` loop is simply empty). -/
theorem parse_xml_short_root_returns_empty (root : List DayNode)
    (h : root.length ≤ 7) : parse_xml root = .ok [] := by
  unfold parse_xml
  rw [List.drop_eq_nil_of_le h]
  rfl

theorem parse_xml_short_root_returns_empty_witness :
    parse_xml [{ date := "a", children := [] }, { date := "b", children := [] }] = .ok [] :=
  parse_xml_short_root_returns_empty _ (by decide)

/-! ### C3: the concrete wind-day scenario with the feed's date format -/

/-- C3: on the day node of the concrete scenario — date attribute
`27/10/2022` (the `DD/MM/YYYY` format of the source schema), one `Eolien`
node with periods `0 ↦ "100"` and `1 ↦ "ND"` — `parse_xml_day` raises a
ValueError-class date-format failure, because `get_unix_timestamp` parses the
attribute with the pattern `%Y-%m-%d`.  The claimed two wind Readings are not
produced. -/
theorem parse_xml_day_rejects_feed_date_format :
    parse_xml_day
      { date := "27/10/2022",
        children := [{ v := "Eolien",
                       periods := [{ periode := "0", text := some "100" },
                                   { periode := "1", text := some "ND" }] }] }
      = .error PyErr.valueError := rfl

/-- The same scenario with the date rewritten into the `%Y-%m-%d` form the
code expects does produce exactly the two Readings the specification
describes, locating the defect in the date-format handling alone. -/
theorem parse_xml_day_iso_scenario :
    parse_xml_day
      { date := "2022-10-27",
        children := [{ v := "Eolien",
                       periods := [{ periode := "0", text := some "100" },
                                   { periode := "1", text := some "ND" }] }] }
      = .ok [{ time := 1666828800, country := "FR", values := [("wind", 100)] },
             { time := 1666829700, country := "FR", values := [("wind", 0)] }] := rfl

/-! ### C4: the declared success outcome of `lambda_handler` -/

/-- C4: the claim fails on the code.  When fetch and parse succeed with at
least one Reading, `write_values` raises a TypeError before reaching its
`try` block (the loop body subscripts the list `reading` with the string
`'time'` instead of using the loop variable `r`), and the error propagates out
of `lambda_handler` instead of the declared `{200, "Job successful"}`
response.  Only an empty parse result reaches the success response. -/
theorem lambda_handler_typeerror_on_nonempty_readings :
    lambda_handler [{ time := 1666828800, country := "FR", values := [("wind", 100)] }]
        = .error PyErr.typeError
    ∧ write_values [{ time := 1666828800, country := "FR", values := [("wind", 100)] }]
        = .error PyErr.typeError
    ∧ lambda_handler [] = .ok { statusCode := 200, body := jsonDumpsStr "Job successful" } :=
  ⟨rfl, rfl, rfl⟩

/-! ### C7: unknown energy-type labels -/

theorem processNode_keyerror (s : List Reading) (v : String) (p : PeriodNode)
    (ps : List PeriodNode) (h : lookupEnergy v = none) :
    processNode s { v := v, periods := p :: ps } = .error (PyErr.keyError v) := by
  simp [processNode, exceptFoldl, processPeriod, h]

theorem parse_xml_day_unknown_label_not_ok (day : DayNode) (e : EnergyTypeNode)
    (he : e ∈ day.children) (hl : lookupEnergy e.v = none) (hp : e.periods ≠ []) :
    ∀ rs, parse_xml_day day ≠ .ok rs := by
  intro rs h
  unfold parse_xml_day at h
  cases hi : initReadings day with
  | error err => rw [hi] at h; exact absurd h (by simp)
  | ok init =>
    rw [hi] at h
    obtain ⟨s, s2, hnode⟩ := exceptFoldl_mem_ok processNode day.children init rs h e he
    obtain ⟨v, periods⟩ := e
    cases periods with
    | nil => exact hp rfl
    | cons p ps =>
      rw [processNode_keyerror s v p ps hl] at hnode
      exact absurd hnode (by simp)

/-- C7 counterexample: an energy-type node with an unknown label but no period
children is skipped silently — `parse_xml_day` succeeds with no failure, so
the claim does not hold of every unknown-labeled node. -/
theorem unknown_label_without_periods_is_skipped :
    parse_xml_day { date := "2022-01-01", children := [{ v := "XXX", periods := [] }] }
      = .ok [] := rfl

/-- C7 (amended): for every energy-type node that has at least one period node
and whose label is not a key of the canonical table, `parse_xml_day` fails —
it never returns a successful result for a day containing such a node, and the
failure raised when the node is processed is the KeyError-class lookup failure
naming the label.  (A node with an unknown label but zero period nodes is
silently skipped, because the lookup sits inside the per-period loop.) -/
theorem unknown_label_fails :
    (∀ (day : DayNode) (e : EnergyTypeNode), e ∈ day.children → lookupEnergy e.v = none →
        e.periods ≠ [] → ∀ rs, parse_xml_day day ≠ .ok rs)
    ∧ (∀ (s : List Reading) (v : String) (p : PeriodNode) (ps : List PeriodNode),
        lookupEnergy v = none →
        processNode s { v := v, periods := p :: ps } = .error (PyErr.keyError v)) :=
  ⟨parse_xml_day_unknown_label_not_ok,
   fun s v p ps h => processNode_keyerror s v p ps h⟩

theorem unknown_label_fails_witness :
    processNode [] { v := "XXX", periods := [{ periode := "0", text := some "1" }] }
      = .error (PyErr.keyError "XXX") :=
  unknown_label_fails.2 [] "XXX" { periode := "0", text := some "1" } [] rfl

/-! ### C9: `parse_xml` skips 7 day nodes and concatenates the rest -/

theorem exceptFoldl_parse_days (l : List DayNode) :
    ∀ acc, exceptFoldl
        (fun acc d =>
          match parse_xml_day d with
          | .error e => .error e
          | .ok rs => .ok (acc ++ rs)) acc l
      = match mapParseDays l with
        | .error e => .error e
        | .ok ls => .ok (acc ++ ls.flatten) := by
  induction l with
  | nil => intro acc; simp [exceptFoldl, mapParseDays]
  | cons d ds ih =>
    intro acc
    unfold exceptFoldl mapParseDays
    cases hd : parse_xml_day d with
    | error e => rfl
    | ok rs =>
      show exceptFoldl _ (acc ++ rs) ds = _
      rw [ih (acc ++ rs)]
      cases hm : mapParseDays ds with
      | error e => rfl
      | ok rest => simp

theorem parse_xml_eq_mapJoin (root : List DayNode) :
    parse_xml root = Except.map List.flatten (mapParseDays (root.drop 7)) := by
  unfold parse_xml
  rw [exceptFoldl_parse_days]
  cases hm : mapParseDays (root.drop 7) with
  | error e => rfl
  | ok ls => simp [Except.map]

/-- C9: `parse_xml` returns exactly the concatenation, in document order, of
`parse_xml_day` over the day nodes from index 7 onward — the first 7 day nodes
contribute nothing and are never parsed; in particular, a document of exactly
7 header days followed by 1 data day yields exactly that data day's
Readings. -/
theorem parse_xml_concat_after_skip7 :
    (∀ root : List DayNode,
        parse_xml root = Except.map List.flatten (mapParseDays (root.drop 7)))
    ∧ (∀ (hs : List DayNode) (d : DayNode) (rs : List Reading), hs.length = 7 →
        parse_xml_day d = .ok rs → parse_xml (hs ++ [d]) = .ok rs) := by
  refine ⟨parse_xml_eq_mapJoin, fun hs d rs h7 hd => ?_⟩
  rw [parse_xml_eq_mapJoin]
  have hdrop : (hs ++ [d]).drop 7 = [d] := by rw [← h7, List.drop_left]
  rw [hdrop]
  simp [mapParseDays, hd, Except.map]

theorem parse_xml_concat_after_skip7_witness :
    parse_xml (List.replicate 7 { date := "junk", children := [] } ++
        [{ date := "2022-10-27",
           children := [{ v := "Eolien",
                          periods := [{ periode := "0", text := some "100" },
                                      { periode := "1", text := some "ND" }] }] }])
      = .ok [{ time := 1666828800, country := "FR", values := [("wind", 100)] },
             { time := 1666829700, country := "FR", values := [("wind", 0)] }] :=
  parse_xml_concat_after_skip7.2 _ _ _ rfl rfl

/-! ### C6: placement by the `periode` attribute and additive accumulation -/

/-- C6: the two aliasing source labels for oil map to the same canonical id;
a period's value is added to the accumulator of its node's canonical id at the
list index obtained from the period's own `periode` attribute (not its
position), the entry there becoming old value plus new value while every other
index is untouched; and on the concrete two-node oil day the per-interval
contributions sum to 12. -/
theorem accumulation_additive_by_periode_attribute :
    (lookupEnergy "Pointe" = some "oil" ∧ lookupEnergy "Fioul + Pointe" = some "oil")
    ∧ (∀ (v et : String) (result : List Reading) (p : PeriodNode) (val idx : Int)
          (j : Nat) (r : Reading),
        lookupEnergy v = some et →
        parseValue p.text = .ok val →
        pythonInt p.periode = some idx →
        pyListIndex result.length idx = .ok j →
        result[j]? = some r →
        processPeriod v result p
            = .ok (result.set j { r with values := setVal r.values et (getVal r.values et + val) })
          ∧ (result.set j { r with values := setVal r.values et (getVal r.values et + val) })[j]?
              = some { r with values := setVal r.values et (getVal r.values et + val) }
          ∧ (∀ i : Nat, i ≠ j →
              (result.set j { r with values := setVal r.values et (getVal r.values et + val) })[i]?
                = result[i]?)
          ∧ getVal (setVal r.values et (getVal r.values et + val)) et = getVal r.values et + val)
    ∧ parse_xml_day
        { date := "2022-10-27",
          children := [{ v := "Pointe", periods := [{ periode := "0", text := some "5" }] },
                       { v := "Fioul + Pointe", periods := [{ periode := "0", text := some "7" }] }] }
        = .ok [{ time := 1666828800, country := "FR", values := [("oil", 12)] }] := by
  refine ⟨⟨rfl, rfl⟩, ?_, rfl⟩
  intro v et result p val idx j r h1 h2 h3 h4 h5
  have hj : j < result.length := by
    rcases List.getElem?_eq_some.mp h5 with ⟨hlt, _⟩
    exact hlt
  refine ⟨?_, List.getElem?_set_self hj, ?_, getVal_setVal_self _ _ _⟩
  · simp [processPeriod, h1, h2, h3, h4, h5]
  · intro i hij
    exact List.getElem?_set_ne (fun h => hij h.symm)

theorem accumulation_additive_by_periode_attribute_witness :
    processPeriod "Pointe" [{ time := 0, country := "FR", values := [] }]
        { periode := "0", text := some "5" }
      = .ok [{ time := 0, country := "FR", values := [("oil", 5)] }]
    ∧ getVal (setVal [] "oil" (getVal [] "oil" + 5)) "oil"
        = getVal ([] : List (String × Int)) "oil" + 5 := by
  have h := accumulation_additive_by_periode_attribute.2.1 "Pointe" "oil"
    [{ time := 0, country := "FR", values := [] }] { periode := "0", text := some "5" } 5 0 0
    { time := 0, country := "FR", values := [] } rfl rfl rfl rfl rfl
  exact ⟨h.1, h.2.2.2⟩

/-! ### C5: the missing-data sentinel and other unparsable texts -/

/-- C5: for every period node whose text is a string that fails integer
parsing (the sentinel `"ND"` included), the value recorded for that
(interval, canonical identifier) contribution is 0: the update succeeds with
accumulator old value plus 0, the key is present afterwards, and when there was
no earlier contribution its value is exactly 0. -/
theorem missing_data_defaults_to_zero (v et : String) (result : List Reading)
    (p : PeriodNode) (s : String) (idx : Int) (j : Nat) (r : Reading)
    (hv : lookupEnergy v = some et)
    (ht : p.text = some s)
    (hs : pythonInt s = none)
    (hidx : pythonInt p.periode = some idx)
    (hj : pyListIndex result.length idx = .ok j)
    (hr : result[j]? = some r) :
    processPeriod v result p
        = .ok (result.set j { r with values := setVal r.values et (getVal r.values et + 0) })
    ∧ hasKey (setVal r.values et (getVal r.values et + 0)) et = true
    ∧ (hasKey r.values et = false →
        getVal (setVal r.values et (getVal r.values et + 0)) et = 0) := by
  have hval : parseValue p.text = .ok 0 := by rw [ht]; simp [parseValue, hs]
  refine ⟨?_, hasKey_setVal_self _ _ _, ?_⟩
  · simp [processPeriod, hv, hval, hidx, hj, hr]
  · intro h0
    rw [getVal_setVal_self, getVal_eq_zero_of_not_hasKey _ _ h0]
    simp

theorem missing_data_defaults_to_zero_witness :
    processPeriod "Eolien" [{ time := 0, country := "FR", values := [] }]
        { periode := "0", text := some "ND" }
      = .ok [{ time := 0, country := "FR", values := [("wind", 0)] }]
    ∧ getVal [("wind", 0)] "wind" = 0 := by
  have h := missing_data_defaults_to_zero "Eolien" "wind"
    [{ time := 0, country := "FR", values := [] }] { periode := "0", text := some "ND" }
    "ND" 0 0 { time := 0, country := "FR", values := [] } rfl rfl rfl rfl rfl rfl
  exact ⟨h.1, h.2.2 rfl⟩

/-! ### C8: number, country and times of the Readings of one day -/

theorem processPeriod_ok_eq (v : String) (res : List Reading) (p : PeriodNode)
    (res2 : List Reading) (h : processPeriod v res p = .ok res2) :
    ∃ et value idx j r, lookupEnergy v = some et ∧ parseValue p.text = .ok value ∧
      pythonInt p.periode = some idx ∧ pyListIndex res.length idx = .ok j ∧
      res[j]? = some r ∧
      res2 = res.set j { r with values := setVal r.values et (getVal r.values et + value) } := by
  cases h1 : lookupEnergy v with
  | none => simp [processPeriod, h1] at h
  | some et =>
    cases h2 : parseValue p.text with
    | error e => simp [processPeriod, h1, h2] at h
    | ok value =>
      cases h3 : pythonInt p.periode with
      | none => simp [processPeriod, h1, h2, h3] at h
      | some idx =>
        cases h4 : pyListIndex res.length idx with
        | error e => simp [processPeriod, h1, h2, h3, h4] at h
        | ok j =>
          cases h5 : res[j]? with
          | none => simp [processPeriod, h1, h2, h3, h4, h5] at h
          | some r =>
            simp only [processPeriod, h1, h2, h3, h4, h5, Except.ok.injEq] at h
            exact ⟨et, value, idx, j, r, rfl, rfl, rfl, h4, h5, h.symm⟩

theorem processPeriod_sameShape (v : String) (res : List Reading) (p : PeriodNode)
    (res2 : List Reading) (h : processPeriod v res p = .ok res2) : sameShape res2 res := by
  obtain ⟨et, value, idx, j, r, _, _, _, _, h5, h6⟩ := processPeriod_ok_eq v res p res2 h
  subst h6
  refine ⟨List.length_set .., fun i => ?_⟩
  by_cases hij : i = j
  · subst hij
    rw [List.getElem?_set_self (List.getElem?_eq_some.mp h5).1, h5]
    exact ⟨rfl, rfl⟩
  · rw [List.getElem?_set_ne (fun hh => hij hh.symm)]
    exact ⟨rfl, rfl⟩

theorem processNode_sameShape (res : List Reading) (e : EnergyTypeNode)
    (res2 : List Reading) (h : processNode res e = .ok res2) : sameShape res2 res :=
  exceptFoldl_preserve (processPeriod e.v)
    (fun s a s2 hh => processPeriod_sameShape e.v s a s2 hh) e.periods res res2 h

theorem parse_xml_day_ok_sameShape (day : DayNode) (init rs : List Reading)
    (hi : initReadings day = .ok init) (h : parse_xml_day day = .ok rs) :
    sameShape rs init := by
  unfold parse_xml_day at h
  rw [hi] at h
  exact exceptFoldl_preserve processNode
    (fun s a s2 hh => processNode_sameShape s a s2 hh) day.children init rs h

theorem initLoop_length (date : String) : ∀ (ps : List Nat) (l : List Reading),
    initLoop date ps = .ok l → l.length = ps.length := by
  intro ps
  induction ps with
  | nil => intro l h; cases h; rfl
  | cons p ps ih =>
    intro l h
    unfold initLoop at h
    cases h1 : get_unix_timestamp date p with
    | error e => rw [h1] at h; simp at h
    | ok t =>
      rw [h1] at h
      cases h2 : initLoop date ps with
      | error e => rw [h2] at h; simp at h
      | ok rest =>
        rw [h2] at h
        cases h
        simp [ih rest h2]

theorem initLoop_elem (date : String) : ∀ (ps : List Nat) (l : List Reading),
    initLoop date ps = .ok l → ∀ (i p : Nat) (r : Reading),
      ps[i]? = some p → l[i]? = some r →
      get_unix_timestamp date p = .ok r.time ∧ r.country = "FR" := by
  intro ps
  induction ps with
  | nil => intro l h i p r hp _; simp at hp
  | cons q ps ih =>
    intro l h i p r hp hr
    unfold initLoop at h
    cases h1 : get_unix_timestamp date q with
    | error e => rw [h1] at h; simp at h
    | ok t =>
      rw [h1] at h
      cases h2 : initLoop date ps with
      | error e => rw [h2] at h; simp at h
      | ok rest =>
        rw [h2] at h
        cases h
        cases i with
        | zero =>
          rw [List.getElem?_cons_zero] at hp hr
          cases hp
          cases hr
          exact ⟨h1, rfl⟩
        | succ i2 =>
          rw [List.getElem?_cons_succ] at hp hr
          exact ih rest h2 i2 p r hp hr

theorem get_unix_timestamp_affine (date : String) (i j : Nat) (a b : Int)
    (h1 : get_unix_timestamp date i = .ok a) (h2 : get_unix_timestamp date j = .ok b) :
    b = a + 900 * ((j : Int) - (i : Int)) := by
  unfold get_unix_timestamp at h1 h2
  cases hs : strptime_Ymd date with
  | none => rw [hs] at h1; simp at h1
  | some ymd =>
    obtain ⟨y, m, d⟩ := ymd
    rw [hs] at h1 h2
    simp only [] at h1 h2
    split_ifs at h1 h2 with c1 c2
    simp at h1 h2
    omega

theorem shape_time_country {rs init : List Reading} (hshape : sameShape rs init)
    (i : Nat) (a : Reading) (ha : rs[i]? = some a) :
    ∃ a0, init[i]? = some a0 ∧ a.time = a0.time ∧ a.country = a0.country := by
  have h1 := (hshape.2 i).1
  have h2 := (hshape.2 i).2
  rw [ha] at h1 h2
  cases hinit : init[i]? with
  | none => rw [hinit] at h1; simp at h1
  | some a0 =>
    rw [hinit] at h1 h2
    simp at h1 h2
    exact ⟨a0, rfl, h1, h2⟩

/-- C8: for every day node whose first energy-type child has `N` period
entries, a successful `parse_xml_day` run returns exactly `N` Readings, each
with country `"FR"`, with time values that increase by exactly 900 seconds
between consecutive Readings and are pairwise distinct and strictly increasing
in list order. -/
theorem parse_xml_day_reading_shape (day : DayNode) (e0 : EnergyTypeNode) (rs : List Reading)
    (h0 : day.children.head? = some e0) (h : parse_xml_day day = .ok rs) :
    rs.length = e0.periods.length
    ∧ (∀ r ∈ rs, r.country = "FR")
    ∧ (∀ (i : Nat) (a b : Reading), rs[i]? = some a → rs[i+1]? = some b →
        b.time = a.time + 900)
    ∧ List.Pairwise (fun a b => a.time < b.time) rs := by
  obtain ⟨init, hi⟩ : ∃ init, initReadings day = .ok init := by
    unfold parse_xml_day at h
    cases hi : initReadings day with
    | error e => rw [hi] at h; simp at h
    | ok init => exact ⟨init, rfl⟩
  have hshape : sameShape rs init := parse_xml_day_ok_sameShape day init rs hi h
  have hinit : initLoop day.date (List.range e0.periods.length) = .ok init := by
    unfold initReadings at hi
    rw [h0] at hi
    exact hi
  have hlen : init.length = e0.periods.length := by
    simpa using initLoop_length day.date (List.range e0.periods.length) init hinit
  have hrslen : rs.length = e0.periods.length := hshape.1.trans hlen
  have hidx : ∀ (i : Nat) (r : Reading), init[i]? = some r →
      get_unix_timestamp day.date i = .ok r.time ∧ r.country = "FR" := by
    intro i r hr
    have hilt : i < e0.periods.length := by
      have := (List.getElem?_eq_some.mp hr).1
      omega
    exact initLoop_elem day.date (List.range e0.periods.length) init hinit i i r
      (List.getElem?_range hilt) hr
  refine ⟨hrslen, ?_, ?_, ?_⟩
  · intro r hr
    obtain ⟨i, hlt, hget⟩ := List.getElem_of_mem hr
    obtain ⟨r0, hr0, _, hc⟩ :=
      shape_time_country hshape i r (hget ▸ List.getElem?_eq_getElem hlt)
    rw [hc]
    exact (hidx i r0 hr0).2
  · intro i a b ha hb
    obtain ⟨a0, ha0, hat, _⟩ := shape_time_country hshape i a ha
    obtain ⟨b0, hb0, hbt, _⟩ := shape_time_country hshape (i + 1) b hb
    have h1 := (hidx i a0 ha0).1
    have h2 := (hidx (i + 1) b0 hb0).1
    have := get_unix_timestamp_affine day.date i (i + 1) a0.time b0.time h1 h2
    rw [hat, hbt]
    push_cast at this
    omega
  · rw [List.pairwise_iff_getElem]
    intro i j hi2 hj2 hij
    obtain ⟨a0, ha0, hat, _⟩ :=
      shape_time_country hshape i rs[i] (List.getElem?_eq_getElem hi2)
    obtain ⟨b0, hb0, hbt, _⟩ :=
      shape_time_country hshape j rs[j] (List.getElem?_eq_getElem hj2)
    have h1 := (hidx i a0 ha0).1
    have h2 := (hidx j b0 hb0).1
    have := get_unix_timestamp_affine day.date i j a0.time b0.time h1 h2
    rw [hat, hbt]
    have hij2 : (i : Int) < (j : Int) := by exact_mod_cast hij
    nlinarith [this]

theorem parse_xml_day_reading_shape_witness :
    parse_xml_day
        { date := "2022-10-27",
          children := [{ v := "Eolien",
                         periods := [{ periode := "0", text := some "100" },
                                     { periode := "1", text := some "ND" }] }] }
      = .ok [{ time := 1666828800, country := "FR", values := [("wind", 100)] },
             { time := 1666829700, country := "FR", values := [("wind", 0)] }]
    ∧ List.Pairwise (fun a b => a.time < b.time)
        ([{ time := 1666828800, country := "FR", values := [("wind", 100)] },
          { time := 1666829700, country := "FR", values := [("wind", 0)] }] : List Reading) := by
  have h : parse_xml_day
      { date := "2022-10-27",
        children := [{ v := "Eolien",
                       periods := [{ periode := "0", text := some "100" },
                                   { periode := "1", text := some "ND" }] }] }
      = .ok [{ time := 1666828800, country := "FR", values := [("wind", 100)] },
             { time := 1666829700, country := "FR", values := [("wind", 0)] }] := rfl
  exact ⟨h, (parse_xml_day_reading_shape
    { date := "2022-10-27",
      children := [{ v := "Eolien",
                     periods := [{ periode := "0", text := some "100" },
                                 { periode := "1", text := some "ND" }] }] }
    { v := "Eolien",
      periods := [{ periode := "0", text := some "100" },
                  { periode := "1", text := some "ND" }] }
    [{ time := 1666828800, country := "FR", values := [("wind", 100)] },
     { time := 1666829700, country := "FR", values := [("wind", 0)] }]
    rfl h).2.2.2⟩


/-! ### C2: `get_unix_timestamp` against the UTC-midnight model -/

theorem pyIsLeap_iff (y : Nat) :
    pyIsLeap y = true ↔ (y % 4 = 0 ∧ (¬ y % 100 = 0 ∨ y % 400 = 0)) := by
  unfold pyIsLeap
  split_ifs with h4 h100 h400
  · simp [h4, h100, h400]
  · simp [h4, h100, h400]
  · simp [h4, h100]
  · simp [h4]

theorem daysFromCivil_eq (y m d : Nat) :
    daysFromCivil y m d
      = (civilYear y m * 365 + civilYear y m / 4 - civilYear y m / 100 + civilYear y m / 400
          + civilDoy m d : Nat) - 719468 := by
  unfold daysFromCivil civilDoe civilYoe civilEra
  omega

theorem daysBeforeMonth_bounds (m : Nat) (h3 : 3 ≤ m) (hm : m ≤ 12) :
    59 ≤ daysBeforeMonth m ∧ daysBeforeMonth m ≤ 334 := by
  interval_cases m <;> simp [daysBeforeMonth]

theorem civilDoy_eq_ge3 (m d : Nat) (h3 : 3 ≤ m) (hm : m ≤ 12) (hd : 1 ≤ d) :
    civilDoy m d = daysBeforeMonth m - 59 + (d - 1) := by
  interval_cases m <;> simp [civilDoy, daysBeforeMonth] <;> omega

theorem civilDoy_eq_le2 (m d : Nat) (h1 : 1 ≤ m) (hm : m ≤ 2) (hd : 1 ≤ d) :
    civilDoy m d = daysBeforeMonth m + 306 + (d - 1) := by
  interval_cases m <;> simp [civilDoy, daysBeforeMonth] <;> omega

theorem toordinal_sub_epoch_eq_daysFromCivil (y m d : Nat) (hy : 1 ≤ y) (hm1 : 1 ≤ m)
    (hm2 : m ≤ 12) (hd : 1 ≤ d) :
    (toordinal y m d : Int) - epochOrdinal = daysFromCivil y m d := by
  rw [daysFromCivil_eq]
  unfold toordinal daysBeforeYear epochOrdinal
  by_cases hm3 : m ≤ 2
  · rw [civilDoy_eq_le2 m d hm1 hm3 hd]
    unfold civilYear leapAdj
    rw [if_pos hm3, if_neg (show ¬ 2 < m by omega)]
    omega
  · push_neg at hm3
    rw [civilDoy_eq_ge3 m d (by omega) hm2 hd]
    have hB := daysBeforeMonth_bounds m (by omega) hm2
    unfold civilYear leapAdj
    rw [if_neg (show ¬ m ≤ 2 by omega), if_pos (show 2 < m by omega)]
    cases hb : pyIsLeap y
    · have hl := pyIsLeap_iff y
      rw [hb] at hl
      simp only [Bool.false_eq_true, false_iff] at hl
      simp
      by_cases h4 : y % 4 = 0
      · have h100 : y % 100 = 0 := by
          by_cases hc : y % 100 = 0
          · exact hc
          · exact absurd ⟨h4, Or.inl hc⟩ hl
        have h400 : ¬ y % 400 = 0 := fun hc => hl ⟨h4, Or.inr hc⟩
        omega
      · omega
    · obtain ⟨h4, hor⟩ := (pyIsLeap_iff y).mp hb
      simp
      rcases hor with h100 | h400 <;> omega

theorem strptime_Ymd_bounds (s : String) (y m d : Nat)
    (h : strptime_Ymd s = some (y, m, d)) : 1 ≤ y ∧ 1 ≤ m ∧ m ≤ 12 ∧ 1 ≤ d := by
  unfold strptime_Ymd at h
  split at h
  · split at h
    · dsimp only [] at h
      split at h
      · rename_i hB
        simp only [Option.some.injEq, Prod.mk.injEq] at h
        obtain ⟨hy, hm, hd⟩ := h
        simp only [Bool.and_eq_true, decide_eq_true_eq] at hB
        omega
      · simp at h
    · simp at h
  · simp at h

/-- C2 counterexample: the claim quantifies over every non-negative interval
index, but on the well-formed date `9999-12-31` with index 96 the shifted
datetime leaves the representable calendar and the code raises an
OverflowError-class failure instead of returning the epoch value. -/
theorem get_unix_timestamp_overflow_at_datetime_max :
    get_unix_timestamp "9999-12-31" 96 = .error PyErr.overflowError := rfl

/-- C2 (amended): for every well-formed `YYYY-MM-DD` date string and every
interval index `i` such that the date shifted by `i` quarter hours still lies
within the supported calendar range (at most 9999-12-31 23:59:59),
`get_unix_timestamp` returns exactly the epoch-seconds value of the date taken
as UTC midnight plus `i * 900` seconds, with no timezone or DST adjustment;
past that range the underlying datetime arithmetic raises OverflowError. -/
theorem get_unix_timestamp_refines_utc_midnight (s : String) (y m d i : Nat)
    (h : strptime_Ymd s = some (y, m, d))
    (hrange : toordinal y m d * 86400 + i * 900 ≤ maxOrdinal * 86400 + 86399) :
    get_unix_timestamp s i = .ok (utcMidnightEpoch y m d + 900 * i) := by
  obtain ⟨hy, hm1, hm2, hd⟩ := strptime_Ymd_bounds s y m d h
  have heq := toordinal_sub_epoch_eq_daysFromCivil y m d hy hm1 hm2 hd
  unfold get_unix_timestamp
  rw [h]
  show (if toordinal y m d * 86400 + i * 900 ≤ maxOrdinal * 86400 + 86399 then
          Except.ok (((toordinal y m d * 86400 + i * 900 : Nat) : Int) - epochOrdinal * 86400)
        else Except.error PyErr.overflowError)
      = Except.ok (utcMidnightEpoch y m d + 900 * i)
  rw [if_pos hrange]
  refine congrArg Except.ok ?_
  unfold utcMidnightEpoch
  simp only [epochOrdinal] at heq ⊢
  omega

theorem get_unix_timestamp_refines_utc_midnight_witness :
    get_unix_timestamp "2022-10-27" 2 = .ok (utcMidnightEpoch 2022 10 27 + 900 * 2) :=
  get_unix_timestamp_refines_utc_midnight "2022-10-27" 2022 10 27 2 rfl (by decide)
